import Mathlib

/-!
Shallow embedding of the Psychosonus playback core: the `Song` data model
(models.py and common.py), the thread-safe `MusicQueue` (queue_manager.py,
duplicated verbatim in bot.py), the YouTube search and audio-extraction
logic (youtube_manager.py, search.py), and the playback coordinator
`play_next` together with the `leave`/`stop` commands (discord_bot.py,
web_interface.py).  Locks are elided: every queue method runs entirely
under the single lock, so each method is one atomic state transformation.
-/

namespace Psychosonus

/-- Python slicing `s[:n]` on a string: the first `n` characters. -/
def pyTake (s : String) (n : Nat) : String := String.mk (s.data.take n)

/-- `Song` from models.py: id, title, artist, duration, original url,
source ('spotify' or 'youtube') and the optional YouTube url cached for
playback of Spotify-sourced tracks. -/
structure Song where
  id : String
  title : String
  artist : String
  duration : String
  url : String
  source : String := "youtube"
  youtube_url : Option String := none
deriving DecidableEq, Repr

/-- The dictionary produced by `Song.to_dict` in models.py: all seven keys
are always present (`youtube_url` may map to None). -/
structure SongDict where
  id : String
  title : String
  artist : String
  duration : String
  url : String
  source : String
  youtube_url : Option String
deriving DecidableEq, Repr

/-- models.py `Song.to_dict`. -/
def Song.to_dict (s : Song) : SongDict :=
  { id := s.id, title := s.title, artist := s.artist, duration := s.duration,
    url := s.url, source := s.source, youtube_url := s.youtube_url }

/-- models.py `Song.from_dict`: reads every key; `data.get('source','youtube')`
and `data.get('youtube_url')` always find their key on a dict produced by
`to_dict`, so on such dicts they read the stored values. -/
def Song.from_dict (d : SongDict) : Song :=
  { id := d.id, title := d.title, artist := d.artist, duration := d.duration,
    url := d.url, source := d.source, youtube_url := d.youtube_url }

namespace Common

/-- `Song` from common.py (the dataclass variant used by search.py/bot.py):
no source field, but an optional `preview_url`. -/
structure Song where
  id : String
  title : String
  artist : String
  duration : String
  url : String
  preview_url : Option String := none
deriving DecidableEq, Repr

/-- The dictionary produced by common.py `Song.to_dict`: all six keys present. -/
structure SongDict where
  id : String
  title : String
  artist : String
  duration : String
  url : String
  preview_url : Option String
deriving DecidableEq, Repr

/-- common.py `Song.to_dict`. -/
def Song.to_dict (s : Song) : SongDict :=
  { id := s.id, title := s.title, artist := s.artist, duration := s.duration,
    url := s.url, preview_url := s.preview_url }

/-- common.py `Song.from_dict`. -/
def Song.from_dict (d : SongDict) : Song :=
  { id := d.id, title := d.title, artist := d.artist, duration := d.duration,
    url := d.url, preview_url := d.preview_url }

end Common

/-- `MusicQueue` state (queue_manager.py / bot.py): a deque of pending songs,
the current-track slot, and the capacity.  The lock is elided (each method is
atomic). -/
structure MusicQueue where
  queue : List Song
  current_track : Option Song := none
  max_size : Nat := 100
deriving DecidableEq, Repr

/-- `MusicQueue.add_song`: reject when `len(self.queue) >= self.max_size`,
otherwise append and accept. -/
def MusicQueue.add_song (q : MusicQueue) (song : Song) : Bool × MusicQueue :=
  if q.queue.length ≥ q.max_size then (false, q)
  else (true, { q with queue := q.queue ++ [song] })

/-- `MusicQueue.get_next`: pop the head into `current_track` and return it;
on an empty deque return None and change nothing. -/
def MusicQueue.get_next (q : MusicQueue) : Option Song × MusicQueue :=
  match q.queue with
  | [] => (none, q)
  | s :: rest => (some s, { q with queue := rest, current_track := some s })

/-- `MusicQueue.remove_at_index`: Python `int` index; pops position `index`
of the deque when `0 <= index < len(self.queue)`, else a no-op returning False. -/
def MusicQueue.remove_at_index (q : MusicQueue) (index : Int) : Bool × MusicQueue :=
  if 0 ≤ index ∧ index < (q.queue.length : Int) then
    (true, { q with queue := q.queue.eraseIdx index.toNat })
  else (false, q)

/-- `MusicQueue.clear`: empties the deque only; `current_track` is not touched. -/
def MusicQueue.clear (q : MusicQueue) : MusicQueue :=
  { q with queue := [] }

/-- One entry of the list returned by `get_queue_list`: a fresh dict built by
`to_dict` plus the `current` flag. -/
structure QueueEntry where
  song : SongDict
  current : Bool
deriving DecidableEq, Repr

/-- `MusicQueue.get_queue_list`: current track first (flagged) when set,
then the pending songs in deque order, each entry a fresh `to_dict` copy. -/
def MusicQueue.get_queue_list (q : MusicQueue) : List QueueEntry :=
  (match q.current_track with
   | some c => [⟨c.to_dict, true⟩]
   | none => []) ++ q.queue.map (fun s => ⟨s.to_dict, false⟩)

/-- `MusicQueue.size`: number of pending songs, excluding the current track. -/
def MusicQueue.size (q : MusicQueue) : Nat := q.queue.length

/-- A fresh queue as built by `MusicQueue.__init__(max_size)`. -/
def MusicQueue.init (cap : Nat) : MusicQueue :=
  { queue := [], current_track := none, max_size := cap }

/-- The public mutating operations of `MusicQueue`. -/
inductive QOp where
  | add (s : Song)
  | next
  | removeAt (i : Int)
  | clear
deriving DecidableEq, Repr

/-- State effect of one queue operation (return values dropped). -/
def MusicQueue.applyOp (q : MusicQueue) : QOp → MusicQueue
  | QOp.add s => (q.add_song s).2
  | QOp.next => q.get_next.2
  | QOp.removeAt i => (q.remove_at_index i).2
  | QOp.clear => q.clear

/-- Run a sequence of queue operations from a given state. -/
def MusicQueue.runOps (q : MusicQueue) (ops : List QOp) : MusicQueue :=
  ops.foldl MusicQueue.applyOp q

/-- An enqueue-or-dequeue request, for histories with no removals or clears. -/
inductive EnqDeq where
  | enq (s : Song)
  | deq
deriving DecidableEq, Repr

/-- Trace of running an enqueue/dequeue history: final state, the songs
`add_song` accepted (in call order), and the songs `get_next` returned
(in call order). -/
structure RunTrace where
  final : MusicQueue
  enqueued : List Song
  dequeued : List Song
deriving DecidableEq, Repr

/-- Run an enqueue/dequeue history, recording accepted and returned songs. -/
def runED (q : MusicQueue) : List EnqDeq → RunTrace
  | [] => ⟨q, [], []⟩
  | EnqDeq.enq s :: rest =>
    let step := q.add_song s
    let r := runED step.2 rest
    ⟨r.final, if step.1 then s :: r.enqueued else r.enqueued, r.dequeued⟩
  | EnqDeq.deq :: rest =>
    let step := q.get_next
    let r := runED step.2 rest
    ⟨r.final,
     r.enqueued,
     match step.1 with
     | some s => s :: r.dequeued
     | none => r.dequeued⟩

/-! ### YouTube search (youtube_manager.py `search_tracks`) -/

/-- A raw yt-dlp search entry: each `entry.get(...)` key may be absent. -/
structure RawEntry where
  id : Option String
  title : Option String
  uploader : Option String
  duration : Option Int
deriving DecidableEq, Repr

/-- Python `f"{n:02d}"` for a non-negative integer. -/
def padTwo (n : Nat) : String :=
  if n < 10 then "0" ++ toString n else toString n

/-- Python `f"{n:02d}"` for a possibly negative integer. -/
def padTwoInt (n : Int) : String :=
  if 0 ≤ n ∧ n < 10 then "0" ++ toString n else toString n

/-- youtube_manager.py duration formatting: `mm:ss` when the raw duration is
a positive number, else "Unknown" (`if duration and duration > 0`). -/
def formatDuration (d : Int) : String :=
  if 0 < d then padTwo (d / 60).toNat ++ ":" ++ padTwo (d % 60).toNat
  else "Unknown"

/-- Python `title.split(' - ', 1)`: split at the first occurrence only. -/
def splitFirst (s sep : String) : List String :=
  match s.splitOn sep with
  | [] => [s]
  | [x] => [x]
  | x :: rest => [x, sep.intercalate rest]

/-- youtube_manager.py: processing of one search entry into a `Song`
(None entries and entries without an 'id' are skipped; artist is pulled out
of a "A - T" title when the uploader looks generic; title and artist are
truncated to 100 and 50 characters at construction). -/
def mkTrack (e : RawEntry) : Option Song :=
  match e.id with
  | none => none
  | some video_id =>
    let title0 := e.title.getD "Unknown Title"
    let uploader0 := e.uploader.getD "Unknown Artist"
    let duration_str := formatDuration (e.duration.getD 0)
    let split :=
      if (title0.splitOn " - ").length ≥ 2 ∧
          (uploader0 = "Various Artists" ∨ uploader0 = "Unknown Artist" ∨
            uploader0 = title0) then
        match splitFirst title0 " - " with
        | [a, b] => (a.trim, b.trim)
        | _ => (uploader0, title0)
      else (uploader0, title0)
    some { id := video_id,
           title := pyTake split.2 100,
           artist := pyTake split.1 50,
           duration := duration_str,
           url := "https://www.youtube.com/watch?v=" ++ video_id,
           source := "youtube",
           youtube_url := none }

/-- youtube_manager.py `YouTubeManager.search_tracks` applied to the entry
list of a search result (network and logging elided). -/
def search_tracks (entries : List (Option RawEntry)) : List Song :=
  entries.filterMap (fun oe => oe.bind mkTrack)

/-- search.py duration formatting: `if duration:` formats any nonzero value. -/
def formatDurationC (d : Int) : String :=
  if d ≠ 0 then padTwoInt (d / 60) ++ ":" ++ padTwoInt (d % 60)
  else "Unknown"

/-- search.py: processing of one search entry into a common.py `Song`
(no artist-splitting heuristic; same 100/50-character truncation). -/
def mkTrackC (e : RawEntry) : Option Common.Song :=
  match e.id with
  | none => none
  | some video_id =>
    some { id := video_id,
           title := pyTake (e.title.getD "Unknown Title") 100,
           artist := pyTake (e.uploader.getD "Unknown Artist") 50,
           duration := formatDurationC (e.duration.getD 0),
           url := "https://www.youtube.com/watch?v=" ++ video_id,
           preview_url := none }

/-- search.py `YouTubeManager.search_tracks` applied to the entry list. -/
def search_tracksC (entries : List (Option RawEntry)) : List Common.Song :=
  entries.filterMap (fun oe => oe.bind mkTrackC)

/-! ### Audio-URL extraction (youtube_manager.py `get_audio_url`) -/

/-- Outcome of one `ydl.extract_info` attempt for a given format preference:
an info dict with a 'url' key, an info dict without one (or None), or a
raised exception. -/
inductive ExtractOutcome where
  | ok (url : String)
  | noUrl
  | exn
deriving DecidableEq, Repr

/-- Whether an attempt produced a playable URL. -/
def ExtractOutcome.isOk : ExtractOutcome → Bool
  | ExtractOutcome.ok _ => true
  | _ => false

/-- The primary format preference of `get_audio_url`. -/
def primaryFormat : String := "bestaudio/best"

/-- The ranked fallback format preferences, in the declared order. -/
def fallback_formats : List String :=
  ["bestaudio[ext=m4a]", "bestaudio[ext=webm]", "best[height<=480]", "worst"]

/-- The fallback loop of `get_audio_url`: each format is tried in order,
exceptions are caught and the loop continues; None when nothing worked. -/
def tryFallbacks (extract : String → ExtractOutcome) : List String → Option String
  | [] => none
  | f :: rest =>
    match extract f with
    | ExtractOutcome.ok u => some u
    | _ => tryFallbacks extract rest

/-- youtube_manager.py `YouTubeManager.get_audio_url`, with the per-format
`ydl.extract_info` behaviour abstracted as `extract`.  A primary attempt that
returns an info dict with a 'url' succeeds at once; one that completes
without a 'url' enters the fallback loop; one that raises is caught by the
outer handlers and returns None directly, without trying any fallback. -/
def get_audio_url (extract : String → ExtractOutcome) : Option String :=
  match extract primaryFormat with
  | ExtractOutcome.ok u => some u
  | ExtractOutcome.noUrl => tryFallbacks extract fallback_formats
  | ExtractOutcome.exn => none

/-! ### Playback coordinator (discord_bot.py `MusicBot.play_next`) -/

/-- The four search-query variants tried for a Spotify-sourced track,
in the declared order. -/
def searchQueries (s : Song) : List String :=
  [s.artist ++ " " ++ s.title,
   s.title ++ " " ++ s.artist,
   s.title,
   s.artist ++ " - " ++ s.title]

/-- The `for query in search_queries` loop: the first non-empty result list,
or `[]` when every variant comes back empty. -/
def firstNonEmpty (search : String → List Song) : List String → List Song
  | [] => []
  | q :: rest =>
    match search q with
    | [] => firstNonEmpty search rest
    | r => r

/-- Core of `play_next` acting on the deque and the current-track slot, with
the search and stream-extraction collaborators abstracted.  Returns the
final deque, the final current slot, and — when playback starts — the song
now playing together with its audio URL.  An empty queue stops (is_playing
False, current untouched); a resolution or extraction failure skips the
track and recurses on the rest of the queue. -/
def playNextAux (search : String → List Song) (extract : String → Option String) :
    List Song → Option Song → List Song × Option Song × Option (Song × String)
  | [], cur => ([], cur, none)
  | s :: rest, _ =>
    if s.source = "spotify" then
      match firstNonEmpty search (searchQueries s) with
      | [] => playNextAux search extract rest (some s)
      | yt :: _ =>
        let s2 : Song := { s with youtube_url := some yt.url }
        match extract yt.url with
        | none => playNextAux search extract rest (some s2)
        | some audio => (rest, some s2, some (s2, audio))
    else
      match extract s.url with
      | none => playNextAux search extract rest (some s)
      | some audio => (rest, some s, some (s, audio))

/-- `play_next` on a `MusicQueue`. -/
def playNext (search : String → List Song) (extract : String → Option String)
    (q : MusicQueue) : MusicQueue × Option (Song × String) :=
  let r := playNextAux search extract q.queue q.current_track
  ({ q with queue := r.1, current_track := r.2.1 }, r.2.2)

/-! ### Bot session state (discord_bot.py / web_interface.py) -/

/-- The `MusicBot` fields touched by the join/leave/stop handlers, together
with the voice client's player status (`voice_client.is_playing()` /
`is_paused()`) that the web stop handler branches on. -/
structure BotState where
  voice_connected : Bool
  voice_playing : Bool := false
  voice_paused : Bool := false
  is_playing : Bool
  current_channel : Option String
  current_guild_id : Option Nat
  music_queue : MusicQueue
deriving DecidableEq, Repr

/-- discord_bot.py `leave_voice` (same state effect as web_interface.py
`leave_channel`): when connected, disconnect and null out the voice client,
playing flag, channel and guild; the music queue is not touched. -/
def leave_voice (b : BotState) : BotState :=
  if b.voice_connected then
    { b with voice_connected := false, is_playing := false,
             current_channel := none, current_guild_id := none }
  else b

/-- discord_bot.py `stop_music` (the `!stop` command): when connected, stop
the player, clear the deque (`MusicQueue.clear`) and drop the playing flag;
the current slot is not touched. -/
def stop_music (b : BotState) : BotState :=
  if b.voice_connected then
    { b with voice_playing := false, voice_paused := false,
             is_playing := false, music_queue := b.music_queue.clear }
  else b

/-- web_interface.py `stop_song` (the `/api/control/stop` handler): when
connected and the voice client is playing or paused, stop the player, drop
the playing flag and set `music_queue.current_track = None`; in every other
case report an error and change nothing. -/
def stop_song (b : BotState) : BotState :=
  if b.voice_connected then
    if b.voice_playing || b.voice_paused then
      { b with voice_playing := false, voice_paused := false,
               is_playing := false,
               music_queue := { b.music_queue with current_track := none } }
    else b
  else b

/-! ### Sample data for concrete witnesses -/

/-- Sample track. -/
def tA : Song :=
  { id := "a", title := "Song A", artist := "Artist A", duration := "03:00",
    url := "https://www.youtube.com/watch?v=a" }

/-- Sample track. -/
def tB : Song :=
  { id := "b", title := "Song B", artist := "Artist B", duration := "04:00",
    url := "https://www.youtube.com/watch?v=b" }

/-- Sample track. -/
def tC : Song :=
  { id := "c", title := "Song C", artist := "Artist C", duration := "05:00",
    url := "https://www.youtube.com/watch?v=c" }

/-! ### Helper lemmas -/

/-- Every queue operation preserves the capacity bound on the pending deque
and leaves the configured capacity itself unchanged. -/
theorem applyOp_size_le (q : MusicQueue) (op : QOp) (h : q.size ≤ q.max_size) :
    (q.applyOp op).size ≤ (q.applyOp op).max_size ∧
      (q.applyOp op).max_size = q.max_size := by
  cases op with
  | add s =>
    simp only [MusicQueue.applyOp, MusicQueue.add_song]
    split
    · exact ⟨h, rfl⟩
    · rename_i hlt
      push_neg at hlt
      refine ⟨?_, rfl⟩
      simpa [MusicQueue.size] using hlt
  | next =>
    simp only [MusicQueue.applyOp, MusicQueue.get_next]
    cases hq : q.queue with
    | nil => exact ⟨h, rfl⟩
    | cons x t =>
      refine ⟨?_, rfl⟩
      have hlen : (x :: t).length ≤ q.max_size := by
        simpa [MusicQueue.size, hq] using h
      simp only [MusicQueue.size, List.length_cons] at hlen ⊢
      omega
  | removeAt i =>
    simp only [MusicQueue.applyOp, MusicQueue.remove_at_index]
    split
    · refine ⟨?_, rfl⟩
      simp only [MusicQueue.size] at h ⊢
      exact le_trans (List.length_eraseIdx_le _ _) h
    · exact ⟨h, rfl⟩
  | clear =>
    simp [MusicQueue.applyOp, MusicQueue.clear, MusicQueue.size]

/-- Running any operation sequence from a state within capacity stays within
the (unchanged) capacity. -/
theorem runOps_size_le (ops : List QOp) (q : MusicQueue) (h : q.size ≤ q.max_size) :
    (q.runOps ops).size ≤ (q.runOps ops).max_size ∧
      (q.runOps ops).max_size = q.max_size := by
  induction ops generalizing q with
  | nil => exact ⟨h, rfl⟩
  | cons op rest ih =>
    have hstep := applyOp_size_le q op h
    have := ih (q.applyOp op) hstep.1
    simp only [MusicQueue.runOps, List.foldl_cons] at *
    exact ⟨this.1, this.2.trans hstep.2⟩

/-! ### C3 -/

/-- C3: `add_song` appends the track and returns True exactly when the number
of pending songs is strictly below the capacity, and otherwise returns False
with the whole queue state (pending deque, order, current slot) unchanged;
consequently, after any sequence of operations on a fresh queue, `size()`
never exceeds the configured capacity. -/
theorem C3_enqueue_capacity :
    (∀ (q : MusicQueue) (s : Song), q.size < q.max_size →
        q.add_song s = (true, { q with queue := q.queue ++ [s] })) ∧
    (∀ (q : MusicQueue) (s : Song), ¬ q.size < q.max_size →
        q.add_song s = (false, q)) ∧
    (∀ (cap : Nat) (ops : List QOp), ((MusicQueue.init cap).runOps ops).size ≤ cap) := by
  refine ⟨?_, ?_, ?_⟩
  · intro q s h
    simp only [MusicQueue.size] at h
    simp [MusicQueue.add_song, Nat.not_le.mpr h]
  · intro q s h
    simp only [MusicQueue.size] at h
    simp [MusicQueue.add_song, Nat.le_of_not_lt h]
  · intro cap ops
    have h := runOps_size_le ops (MusicQueue.init cap) (by simp [MusicQueue.size, MusicQueue.init])
    have h1 := h.1
    rw [h.2] at h1
    exact h1

/-- Witness for C3 at concrete inputs: an accepted enqueue below capacity, a
rejected enqueue at capacity leaving the state unchanged, and a run of three
enqueues into a capacity-2 queue ending at size ≤ 2. -/
theorem C3_enqueue_capacity_witness :
    (MusicQueue.init 2).add_song tA = (true, { MusicQueue.init 2 with queue := [tA] }) ∧
    (((MusicQueue.init 1).add_song tA).2.add_song tB = (false, ((MusicQueue.init 1).add_song tA).2)) ∧
    ((MusicQueue.init 2).runOps [QOp.add tA, QOp.add tB, QOp.add tC]).size ≤ 2 := by
  refine ⟨?_, ?_, C3_enqueue_capacity.2.2 2 [QOp.add tA, QOp.add tB, QOp.add tC]⟩
  · exact C3_enqueue_capacity.1 (MusicQueue.init 2) tA (by decide)
  · exact C3_enqueue_capacity.2.1 (((MusicQueue.init 1).add_song tA).2) tB (by decide)

/-! ### C4 -/

/-- C4: on a non-empty deque, `get_next` removes the head, stores it in the
current slot and returns it; on an empty deque it returns None and leaves the
whole state — current slot included — untouched. -/
theorem C4_dequeue_next :
    (∀ (q : MusicQueue) (s : Song) (rest : List Song), q.queue = s :: rest →
        q.get_next = (some s, { q with queue := rest, current_track := some s })) ∧
    (∀ q : MusicQueue, q.queue = [] → q.get_next = (none, q)) := by
  constructor
  · intro q s rest h
    simp [MusicQueue.get_next, h]
  · intro q h
    simp [MusicQueue.get_next, h]

/-- Witness for C4 at a concrete queue: dequeue from [tA, tB] pops tA into
the current slot; dequeue from the empty queue is a no-op returning None. -/
theorem C4_dequeue_next_witness :
    ({ MusicQueue.init 10 with queue := [tA, tB] }).get_next =
      (some tA, { MusicQueue.init 10 with queue := [tB], current_track := some tA }) ∧
    (MusicQueue.init 10).get_next = (none, MusicQueue.init 10) := by
  constructor
  · exact C4_dequeue_next.1 ({ MusicQueue.init 10 with queue := [tA, tB] }) tA [tB] rfl
  · exact C4_dequeue_next.2 (MusicQueue.init 10) rfl

/-! ### C5 -/

/-- On any enqueue/dequeue history, the dequeued outputs followed by the
still-pending songs equal the initial pending songs followed by the accepted
enqueues, all in order. -/
theorem runED_fifo (ops : List EnqDeq) (q : MusicQueue) :
    (runED q ops).dequeued ++ (runED q ops).final.queue =
      q.queue ++ (runED q ops).enqueued := by
  induction ops generalizing q with
  | nil => simp [runED]
  | cons op rest ih =>
    cases op with
    | enq s =>
      simp only [runED, MusicQueue.add_song]
      split
      · simpa using ih q
      · have := ih { q with queue := q.queue ++ [s] }
        simp only at this
        simp [this]
    | deq =>
      simp only [runED, MusicQueue.get_next]
      cases hq : q.queue with
      | nil => simpa [hq] using ih q
      | cons x t =>
        have := ih { q with queue := t, current_track := some x }
        simp only at this
        simp [this]

/-- C5: over any history of enqueues and dequeues (no removals or clears) on
a fresh queue, the songs returned by `get_next`, in order, followed by the
songs still pending, equal the accepted enqueues in order — so the dequeued
sequence is a prefix of the accepted-enqueue sequence (FIFO, no duplication,
no loss), and the two are equal as soon as the queue has drained. -/
theorem C5_fifo (cap : Nat) (ops : List EnqDeq) :
    (runED (MusicQueue.init cap) ops).dequeued ++ (runED (MusicQueue.init cap) ops).final.queue
        = (runED (MusicQueue.init cap) ops).enqueued ∧
    (runED (MusicQueue.init cap) ops).dequeued <+: (runED (MusicQueue.init cap) ops).enqueued ∧
    ((runED (MusicQueue.init cap) ops).final.queue = [] →
      (runED (MusicQueue.init cap) ops).dequeued = (runED (MusicQueue.init cap) ops).enqueued) := by
  have h := runED_fifo ops (MusicQueue.init cap)
  have hinit : (MusicQueue.init cap).queue = [] := rfl
  rw [hinit, List.nil_append] at h
  refine ⟨h, ⟨_, h⟩, ?_⟩
  intro hemp
  rw [hemp, List.append_nil] at h
  exact h

/-- Witness for C5: the spec scenario — capacity 100, enqueue tA, tB, tC,
dequeue three times; the dequeued sequence is exactly tA, tB, tC. -/
theorem C5_fifo_witness :
    (runED (MusicQueue.init 100)
        [EnqDeq.enq tA, EnqDeq.enq tB, EnqDeq.enq tC, EnqDeq.deq, EnqDeq.deq, EnqDeq.deq]).dequeued
      = (runED (MusicQueue.init 100)
        [EnqDeq.enq tA, EnqDeq.enq tB, EnqDeq.enq tC, EnqDeq.deq, EnqDeq.deq, EnqDeq.deq]).enqueued := by
  exact (C5_fifo 100 [EnqDeq.enq tA, EnqDeq.enq tB, EnqDeq.enq tC,
    EnqDeq.deq, EnqDeq.deq, EnqDeq.deq]).2.2 (by decide)

/-! ### C6 -/

/-- C6: `remove_at_index` with an index outside `[0, size())` — negative or
too large — returns False and leaves the queue unchanged; with an index
inside the range it removes exactly the pending item at that zero-based
position (the prefix before it and the suffix after it survive in order)
and returns True. -/
theorem C6_removeAt :
    (∀ (q : MusicQueue) (i : Int), ¬ (0 ≤ i ∧ i < (q.size : Int)) →
        q.remove_at_index i = (false, q)) ∧
    (∀ (q : MusicQueue) (i : Int), 0 ≤ i → i < (q.size : Int) →
        q.remove_at_index i =
          (true, { q with queue := q.queue.take i.toNat ++ q.queue.drop (i.toNat + 1) })) := by
  constructor
  · intro q i h
    simp only [MusicQueue.size] at h
    simp [MusicQueue.remove_at_index, h]
  · intro q i h0 hlt
    simp only [MusicQueue.size] at hlt
    simp only [MusicQueue.remove_at_index, if_pos (And.intro h0 hlt)]
    rw [List.eraseIdx_eq_take_drop_succ]

/-- Witness for C6 at a concrete queue: index -1 and index 2 are rejected
no-ops on a two-song queue; index 0 removes exactly the first pending song. -/
theorem C6_removeAt_witness :
    ({ MusicQueue.init 10 with queue := [tA, tB] }).remove_at_index (-1) =
      (false, { MusicQueue.init 10 with queue := [tA, tB] }) ∧
    ({ MusicQueue.init 10 with queue := [tA, tB] }).remove_at_index 2 =
      (false, { MusicQueue.init 10 with queue := [tA, tB] }) ∧
    ({ MusicQueue.init 10 with queue := [tA, tB] }).remove_at_index 0 =
      (true, { MusicQueue.init 10 with queue := [tB] }) := by
  refine ⟨C6_removeAt.1 _ (-1) (by decide), C6_removeAt.1 _ 2 (by decide), ?_⟩
  have h := C6_removeAt.2 ({ MusicQueue.init 10 with queue := [tA, tB] }) 0 (by decide) (by decide)
  simpa using h

/-! ### C7 -/

/-- C7: `get_queue_list` returns the current track first, flagged current,
when the slot is set, followed by every pending song in insertion order
flagged not current; with the slot empty it is exactly the pending songs in
order.  (Each entry is a fresh `to_dict` dictionary, so the returned list is
a copy independent of the queue's internal deque.) -/
theorem C7_snapshot :
    (∀ (q : MusicQueue) (c : Song), q.current_track = some c →
        q.get_queue_list =
          ⟨c.to_dict, true⟩ :: q.queue.map (fun s => ⟨s.to_dict, false⟩)) ∧
    (∀ q : MusicQueue, q.current_track = none →
        q.get_queue_list = q.queue.map (fun s => ⟨s.to_dict, false⟩)) := by
  constructor
  · intro q c h
    simp [MusicQueue.get_queue_list, h]
  · intro q h
    simp [MusicQueue.get_queue_list, h]

/-- Witness for C7 at a concrete queue: with current tC and pending [tA, tB]
the snapshot is tC (flagged) then tA, tB unflagged; with no current it is
just tA, tB unflagged. -/
theorem C7_snapshot_witness :
    ({ MusicQueue.init 10 with queue := [tA, tB], current_track := some tC }).get_queue_list =
      [⟨tC.to_dict, true⟩, ⟨tA.to_dict, false⟩, ⟨tB.to_dict, false⟩] ∧
    ({ MusicQueue.init 10 with queue := [tA, tB] }).get_queue_list =
      [⟨tA.to_dict, false⟩, ⟨tB.to_dict, false⟩] := by
  constructor
  · have h := C7_snapshot.1 ({ MusicQueue.init 10 with queue := [tA, tB], current_track := some tC }) tC rfl
    simpa using h
  · have h := C7_snapshot.2 ({ MusicQueue.init 10 with queue := [tA, tB] }) rfl
    simpa using h

/-! ### C9 -/

/-- C9: serialization round-trips exactly, for both Song variants: every
field of `from_dict (to_dict s)` — id, title, artist, duration, url, and the
source/youtube_url extras of models.py, or the preview_url extra of
common.py — equals the corresponding field of `s`. -/
theorem C9_roundtrip :
    (∀ s : Song, Song.from_dict s.to_dict = s) ∧
    (∀ s : Common.Song, Common.Song.from_dict s.to_dict = s) := by
  constructor
  · intro s; cases s; rfl
  · intro s; cases s; rfl

/-! ### C8 -/

/-- A concrete connected, actively playing session that has a current track. -/
def b0 : BotState :=
  { voice_connected := true, voice_playing := true, voice_paused := false,
    is_playing := true,
    current_channel := some "general", current_guild_id := some 1,
    music_queue := { queue := [tB], current_track := some tA, max_size := 100 } }

/-- Counterexample to C8 as stated: after the leave handler completes on a
connected session with a current track, playback is indeed idle, but the
queue's current slot still holds the track — disconnect does not clear it. -/
theorem C8_counterexample :
    (leave_voice b0).is_playing = false ∧
    (leave_voice b0).music_queue.current_track = some tA := by
  constructor <;> rfl

/-- C8 (amended): after a disconnect (leave) on a connected session, the
playback state is Idle (is_playing False) but the queue — current slot
included — is left exactly as it was, not cleared; the current slot is set
only by `get_next` and cleared only by the explicit web stop handler
(`/api/control/stop`, which stops playback and nulls the slot while keeping
the pending deque): the Discord `!stop` command empties only the pending
deque, and no queue operation other than `get_next` touches the slot. -/
theorem C8_leave_idle_current_kept (b : BotState) (h : b.voice_connected = true) :
    (leave_voice b).is_playing = false ∧
    (leave_voice b).music_queue = b.music_queue ∧
    ((b.voice_playing || b.voice_paused) = true →
        (stop_song b).is_playing = false ∧
        (stop_song b).music_queue.current_track = none ∧
        (stop_song b).music_queue.queue = b.music_queue.queue) ∧
    (stop_music b).music_queue.current_track = b.music_queue.current_track ∧
    (∀ (q : MusicQueue) (op : QOp), op ≠ QOp.next →
        (q.applyOp op).current_track = q.current_track) ∧
    (∀ (q : MusicQueue) (s : Song) (rest : List Song), q.queue = s :: rest →
        (q.applyOp QOp.next).current_track = some s) := by
  refine ⟨?_, ?_, ?_, ?_, ?_, ?_⟩
  · simp [leave_voice, h]
  · simp [leave_voice, h]
  · intro hp
    refine ⟨?_, ?_, ?_⟩ <;> simp [stop_song, h, hp]
  · simp [stop_music, MusicQueue.clear, h]
  · intro q op hop
    cases op with
    | add s => simp only [MusicQueue.applyOp, MusicQueue.add_song]; split <;> rfl
    | next => exact absurd rfl hop
    | removeAt i => simp only [MusicQueue.applyOp, MusicQueue.remove_at_index]; split <;> rfl
    | clear => rfl
  · intro q s rest hq
    simp [MusicQueue.applyOp, MusicQueue.get_next, hq]

/-- Witness for the amended C8 at the concrete playing session `b0`: leave
goes idle keeping the whole queue; the web stop handler clears the current
slot while keeping the pending deque; the Discord stop keeps the current
slot; an enqueue never touches it, and a dequeue sets it. -/
theorem C8_leave_idle_current_kept_witness :
    (leave_voice b0).is_playing = false ∧
    (leave_voice b0).music_queue = b0.music_queue ∧
    (stop_song b0).music_queue.current_track = none ∧
    (stop_song b0).music_queue.queue = [tB] ∧
    (stop_music b0).music_queue.current_track = some tA ∧
    (b0.music_queue.applyOp (QOp.add tC)).current_track = b0.music_queue.current_track ∧
    (b0.music_queue.applyOp QOp.next).current_track = some tB := by
  have h := C8_leave_idle_current_kept b0 rfl
  have hstop := h.2.2.1 (by decide)
  exact ⟨h.1, h.2.1, hstop.2.1, hstop.2.2, h.2.2.2.1,
    h.2.2.2.2.1 b0.music_queue (QOp.add tC) (by decide),
    h.2.2.2.2.2 b0.music_queue tB [] rfl⟩

/-! ### C1 -/

/-- The search loop keeps going past a variant whose result list is empty. -/
theorem firstNonEmpty_cons_empty (search : String → List Song) (v : String)
    (rest : List String) (h : search v = []) :
    firstNonEmpty search (v :: rest) = firstNonEmpty search rest := by
  simp [firstNonEmpty, h]

/-- The search loop stops at a variant whose result list is non-empty and
keeps that whole result list. -/
theorem firstNonEmpty_cons_nonEmpty (search : String → List Song) (v : String)
    (rest : List String) (h : search v ≠ []) :
    firstNonEmpty search (v :: rest) = search v := by
  cases hv : search v with
  | nil => exact absurd hv h
  | cons a l => simp [firstNonEmpty, hv]

/-- C1: for a Spotify-sourced (metadata-only) track, `play_next` tries the
query variants "{artist} {title}", "{title} {artist}", "{title}",
"{artist} - {title}" in exactly that order, stops at the first variant whose
search returns a non-empty list, and takes that variant's first result as
the match; if all four variants return empty, the track is skipped and the
coordinator advances directly to the next queue entry. -/
theorem C1_waterfall (search : String → List Song) (extract : String → Option String)
    (s : Song) (hs : s.source = "spotify") :
    (search (s.artist ++ " " ++ s.title) ≠ [] →
        firstNonEmpty search (searchQueries s) = search (s.artist ++ " " ++ s.title)) ∧
    (search (s.artist ++ " " ++ s.title) = [] →
      search (s.title ++ " " ++ s.artist) ≠ [] →
        firstNonEmpty search (searchQueries s) = search (s.title ++ " " ++ s.artist)) ∧
    (search (s.artist ++ " " ++ s.title) = [] →
      search (s.title ++ " " ++ s.artist) = [] →
      search s.title ≠ [] →
        firstNonEmpty search (searchQueries s) = search s.title) ∧
    (search (s.artist ++ " " ++ s.title) = [] →
      search (s.title ++ " " ++ s.artist) = [] →
      search s.title = [] →
      search (s.artist ++ " - " ++ s.title) ≠ [] →
        firstNonEmpty search (searchQueries s) = search (s.artist ++ " - " ++ s.title)) ∧
    (∀ (yt : Song) (more : List Song) (audio : String) (rest : List Song) (cur : Option Song),
      firstNonEmpty search (searchQueries s) = yt :: more →
      extract yt.url = some audio →
        playNextAux search extract (s :: rest) cur =
          (rest, some { s with youtube_url := some yt.url },
            some ({ s with youtube_url := some yt.url }, audio))) ∧
    ((∀ v ∈ searchQueries s, search v = []) →
      firstNonEmpty search (searchQueries s) = [] ∧
      ∀ (rest : List Song) (cur : Option Song),
        playNextAux search extract (s :: rest) cur =
          playNextAux search extract rest (some s)) := by
  refine ⟨?_, ?_, ?_, ?_, ?_, ?_⟩
  · intro h1
    exact firstNonEmpty_cons_nonEmpty search _ _ h1
  · intro h1 h2
    rw [searchQueries, firstNonEmpty_cons_empty search _ _ h1,
      firstNonEmpty_cons_nonEmpty search _ _ h2]
  · intro h1 h2 h3
    rw [searchQueries, firstNonEmpty_cons_empty search _ _ h1,
      firstNonEmpty_cons_empty search _ _ h2,
      firstNonEmpty_cons_nonEmpty search _ _ h3]
  · intro h1 h2 h3 h4
    rw [searchQueries, firstNonEmpty_cons_empty search _ _ h1,
      firstNonEmpty_cons_empty search _ _ h2,
      firstNonEmpty_cons_empty search _ _ h3,
      firstNonEmpty_cons_nonEmpty search _ _ h4]
  · intro yt more audio rest cur hfirst hext
    simp [playNextAux, hs, hfirst, hext]
  · intro hall
    have h1 := hall (s.artist ++ " " ++ s.title) (by simp [searchQueries])
    have h2 := hall (s.title ++ " " ++ s.artist) (by simp [searchQueries])
    have h3 := hall s.title (by simp [searchQueries])
    have h4 := hall (s.artist ++ " - " ++ s.title) (by simp [searchQueries])
    have hfe : firstNonEmpty search (searchQueries s) = [] := by
      rw [searchQueries, firstNonEmpty_cons_empty search _ _ h1,
        firstNonEmpty_cons_empty search _ _ h2,
        firstNonEmpty_cons_empty search _ _ h3,
        firstNonEmpty_cons_empty search _ _ h4]
      rfl
    refine ⟨hfe, ?_⟩
    intro rest cur
    simp [playNextAux, hs, hfe]

/-- A Spotify-sourced sample track, as in the spec's acceptance scenario:
{title: "Song X", artist: "Artist Y"}. -/
def spotifyTrack : Song :=
  { id := "sp1", title := "Song X", artist := "Artist Y", duration := "03:10",
    url := "https://open.spotify.com/track/sp1", source := "spotify" }

/-- A search stub that returns a single hit only for the fourth variant
"Artist Y - Song X" and empty for everything else. -/
def fourthVariantSearch : String → List Song :=
  fun v => if v = "Artist Y - Song X" then [tA] else []

/-- A search stub that never finds anything. -/
def emptySearch : String → List Song := fun _ => []

/-- Witness for C1 at concrete inputs — the spec's scenario C (only the
fourth variant hits, and its first result becomes the match) and the
all-empty case (the track is skipped, leaving the coordinator on the next
entry). -/
theorem C1_waterfall_witness :
    firstNonEmpty fourthVariantSearch (searchQueries spotifyTrack) =
      fourthVariantSearch "Artist Y - Song X" ∧
    playNextAux fourthVariantSearch (fun _ => some "audio") [spotifyTrack, tB] none =
      ([tB], some { spotifyTrack with youtube_url := some tA.url },
        some ({ spotifyTrack with youtube_url := some tA.url }, "audio")) ∧
    playNextAux emptySearch (fun _ => some "audio") [spotifyTrack] (some tC) =
      playNextAux emptySearch (fun _ => some "audio") [] (some spotifyTrack) := by
  have h := C1_waterfall fourthVariantSearch (fun _ => some "audio") spotifyTrack rfl
  have hemp := C1_waterfall emptySearch (fun _ => some "audio") spotifyTrack rfl
  refine ⟨?_, ?_, ?_⟩
  · exact h.2.2.2.1 (by decide) (by decide) (by decide) (by decide)
  · exact h.2.2.2.2.1 tA [] "audio" [tB] none (by decide) rfl
  · exact (hemp.2.2.2.2.2 (by decide)).2 [] (some tC)

/-! ### C2 -/

/-- The fallback loop skips a format whose attempt yields no URL (whether it
completed without one or raised — both are caught and the loop continues). -/
theorem tryFallbacks_cons_notOk (extract : String → ExtractOutcome) (f : String)
    (rest : List String) (h : (extract f).isOk = false) :
    tryFallbacks extract (f :: rest) = tryFallbacks extract rest := by
  cases hf : extract f with
  | ok u => rw [hf] at h; simp [ExtractOutcome.isOk] at h
  | noUrl => simp [tryFallbacks, hf]
  | exn => simp [tryFallbacks, hf]

/-- The fallback loop returns the URL of the first succeeding format. -/
theorem tryFallbacks_cons_ok (extract : String → ExtractOutcome) (f : String)
    (rest : List String) (u : String) (h : extract f = ExtractOutcome.ok u) :
    tryFallbacks extract (f :: rest) = some u := by
  simp [tryFallbacks, h]

/-- The fallback loop comes back empty exactly when no format in the list
produces a URL. -/
theorem tryFallbacks_eq_none_iff (extract : String → ExtractOutcome) (l : List String) :
    tryFallbacks extract l = none ↔ ∀ f ∈ l, (extract f).isOk = false := by
  induction l with
  | nil => simp [tryFallbacks]
  | cons f rest ih =>
    cases hf : extract f with
    | ok u =>
      rw [tryFallbacks_cons_ok extract f rest u hf]
      simp [hf, ExtractOutcome.isOk]
    | noUrl =>
      rw [tryFallbacks_cons_notOk extract f rest (by simp [hf, ExtractOutcome.isOk])]
      simp [hf, ExtractOutcome.isOk, ih]
    | exn =>
      rw [tryFallbacks_cons_notOk extract f rest (by simp [hf, ExtractOutcome.isOk])]
      simp [hf, ExtractOutcome.isOk, ih]

/-- A per-format attempt behaviour under which the primary attempt raises
(is caught by the outer exception handlers) while every fallback format
would succeed. -/
def exnPrimary : String → ExtractOutcome :=
  fun f => if f = "bestaudio/best" then ExtractOutcome.exn
           else ExtractOutcome.ok "https://cdn.example/audio"

/-- Counterexample to C2 as stated: when the primary attempt raises,
`get_audio_url` returns None immediately even though a fallback attempt
(here every one of them) would succeed — so "returns no URL iff the primary
attempt and every fallback attempt fail" is false. -/
theorem C2_counterexample :
    ¬ (get_audio_url exnPrimary = none ↔
        ((exnPrimary primaryFormat).isOk = false ∧
          ∀ f ∈ fallback_formats, (exnPrimary f).isOk = false)) := by
  decide

/-- C2 (amended): the primary format 'bestaudio/best' is attempted first and
its URL returned on success; only when the primary attempt completes without
a URL are the fallback formats 'bestaudio[ext=m4a]', 'bestaudio[ext=webm]',
'best[height<=480]', 'worst' tried in that fixed order, returning the first
succeeding extraction; when the primary attempt raises, None is returned at
once without trying any fallback; overall, extraction returns no URL exactly
when the primary attempt raises, or it completes URL-less and every fallback
attempt fails. -/
theorem C2_extraction (extract : String → ExtractOutcome) :
    (∀ u, extract primaryFormat = ExtractOutcome.ok u →
        get_audio_url extract = some u) ∧
    (extract primaryFormat = ExtractOutcome.exn → get_audio_url extract = none) ∧
    (extract primaryFormat = ExtractOutcome.noUrl →
      (∀ u, extract "bestaudio[ext=m4a]" = ExtractOutcome.ok u →
          get_audio_url extract = some u) ∧
      ((extract "bestaudio[ext=m4a]").isOk = false →
        ∀ u, extract "bestaudio[ext=webm]" = ExtractOutcome.ok u →
          get_audio_url extract = some u) ∧
      ((extract "bestaudio[ext=m4a]").isOk = false →
        (extract "bestaudio[ext=webm]").isOk = false →
        ∀ u, extract "best[height<=480]" = ExtractOutcome.ok u →
          get_audio_url extract = some u) ∧
      ((extract "bestaudio[ext=m4a]").isOk = false →
        (extract "bestaudio[ext=webm]").isOk = false →
        (extract "best[height<=480]").isOk = false →
        ∀ u, extract "worst" = ExtractOutcome.ok u →
          get_audio_url extract = some u)) ∧
    (get_audio_url extract = none ↔
      (extract primaryFormat = ExtractOutcome.exn ∨
        (extract primaryFormat = ExtractOutcome.noUrl ∧
          ∀ f ∈ fallback_formats, (extract f).isOk = false))) := by
  refine ⟨?_, ?_, ?_, ?_⟩
  · intro u h
    simp [get_audio_url, h]
  · intro h
    simp [get_audio_url, h]
  · intro h
    have hbase : get_audio_url extract = tryFallbacks extract fallback_formats := by
      simp [get_audio_url, h]
    refine ⟨?_, ?_, ?_, ?_⟩
    · intro u h1
      rw [hbase, fallback_formats, tryFallbacks_cons_ok extract _ _ u h1]
    · intro n1 u h2
      rw [hbase, fallback_formats, tryFallbacks_cons_notOk extract _ _ n1,
        tryFallbacks_cons_ok extract _ _ u h2]
    · intro n1 n2 u h3
      rw [hbase, fallback_formats, tryFallbacks_cons_notOk extract _ _ n1,
        tryFallbacks_cons_notOk extract _ _ n2,
        tryFallbacks_cons_ok extract _ _ u h3]
    · intro n1 n2 n3 u h4
      rw [hbase, fallback_formats, tryFallbacks_cons_notOk extract _ _ n1,
        tryFallbacks_cons_notOk extract _ _ n2,
        tryFallbacks_cons_notOk extract _ _ n3,
        tryFallbacks_cons_ok extract _ _ u h4]
  · cases hp : extract primaryFormat with
    | ok u => simp [get_audio_url, hp]
    | noUrl =>
      rw [get_audio_url, hp]
      simp [hp, tryFallbacks_eq_none_iff]
    | exn => simp [get_audio_url, hp]

/-- A per-format attempt behaviour: the primary completes without a URL, the
first two fallbacks fail, the third succeeds. -/
def thirdFallbackWorks : String → ExtractOutcome :=
  fun f => if f = "best[height<=480]" then ExtractOutcome.ok "https://cdn.example/low"
           else if f = "worst" then ExtractOutcome.ok "https://cdn.example/worst"
           else ExtractOutcome.noUrl

/-- Witness for the amended C2 at concrete inputs: with the primary URL-less
and the first two fallbacks failing, the third fallback's URL is returned;
with the primary raising, None is returned even though fallbacks would
succeed. -/
theorem C2_extraction_witness :
    get_audio_url thirdFallbackWorks = some "https://cdn.example/low" ∧
    get_audio_url exnPrimary = none := by
  constructor
  · exact ((C2_extraction thirdFallbackWorks).2.2.1 (by decide)).2.2.1
      (by decide) (by decide) "https://cdn.example/low" (by decide)
  · exact (C2_extraction exnPrimary).2.1 (by decide)

/-! ### C10 -/

/-- Python `s[:n]` yields at most `n` characters. -/
theorem pyTake_length_le (s : String) (n : Nat) : (pyTake s n).length ≤ n :=
  List.length_take_le n s.data

/-- Every song built by youtube_manager.py's entry processing has a title of
at most 100 and an artist of at most 50 characters. -/
theorem mkTrack_bounds (e : RawEntry) (s : Song) (h : mkTrack e = some s) :
    s.title.length ≤ 100 ∧ s.artist.length ≤ 50 := by
  cases hid : e.id with
  | none => rw [mkTrack, hid] at h; exact absurd h (by simp)
  | some v =>
    rw [mkTrack, hid] at h
    simp only [Option.some.injEq] at h
    subst h
    exact ⟨pyTake_length_le _ 100, pyTake_length_le _ 50⟩

/-- Every song built by search.py's entry processing has a title of at most
100 and an artist of at most 50 characters. -/
theorem mkTrackC_bounds (e : RawEntry) (s : Common.Song) (h : mkTrackC e = some s) :
    s.title.length ≤ 100 ∧ s.artist.length ≤ 50 := by
  cases hid : e.id with
  | none => rw [mkTrackC, hid] at h; exact absurd h (by simp)
  | some v =>
    rw [mkTrackC, hid] at h
    simp only [Option.some.injEq] at h
    subst h
    exact ⟨pyTake_length_le _ 100, pyTake_length_le _ 50⟩

/-- C10: every `Song` constructed by the YouTube search operation — in
either implementation, youtube_manager.py or search.py — has a title of at
most 100 characters and an artist of at most 50 characters, however long the
raw title and uploader returned by the search backend are. -/
theorem C10_truncation :
    (∀ (entries : List (Option RawEntry)), ∀ s ∈ search_tracks entries,
        s.title.length ≤ 100 ∧ s.artist.length ≤ 50) ∧
    (∀ (entries : List (Option RawEntry)), ∀ s ∈ search_tracksC entries,
        s.title.length ≤ 100 ∧ s.artist.length ≤ 50) := by
  constructor
  · intro entries s hs
    rw [search_tracks, List.mem_filterMap] at hs
    obtain ⟨oe, _, hoe⟩ := hs
    cases oe with
    | none => exact absurd hoe (by simp)
    | some e => exact mkTrack_bounds e s (by simpa using hoe)
  · intro entries s hs
    rw [search_tracksC, List.mem_filterMap] at hs
    obtain ⟨oe, _, hoe⟩ := hs
    cases oe with
    | none => exact absurd hoe (by simp)
    | some e => exact mkTrackC_bounds e s (by simpa using hoe)

/-- A raw search entry whose title is 150 characters and whose uploader is
80 characters. -/
def longEntry : RawEntry :=
  { id := some "long1",
    title := some (String.mk (List.replicate 150 'x')),
    uploader := some (String.mk (List.replicate 80 'y')),
    duration := some 200 }

/-- Witness for C10 at a concrete oversized entry: the constructed songs
respect the 100/50 bounds in both implementations. -/
theorem C10_truncation_witness :
    (∀ s ∈ search_tracks [some longEntry],
        s.title.length ≤ 100 ∧ s.artist.length ≤ 50) ∧
    (∀ s ∈ search_tracksC [some longEntry],
        s.title.length ≤ 100 ∧ s.artist.length ≤ 50) :=
  ⟨C10_truncation.1 [some longEntry], C10_truncation.2 [some longEntry]⟩

end Psychosonus
